import Mathlib

/-!
Verification of the Gemini Native API adapter
(`gemini_native_function.py` and `gemini_native_complete.py`).

Python strings are modeled as `String`, with helpers over the underlying
`List Char` mirroring the semantics of the Python methods the source
uses: `str.split` (with and without a maxsplit of 1), `str.replace`,
`str.strip` (over ASCII whitespace; Python also strips the rarer Unicode
space characters), `str.startswith`, and the `in` substring test.  The float
valued `DEFAULT_VIDEO_FPS` valve only flows through an exact equality test
against `1.0` and is otherwise carried verbatim, so it is modeled as `Rat`.
Python exceptions are modeled with `Option` (`none` = the operation raised).
`re.findall` over the four fixed YouTube URL patterns is implemented as a
direct scanner: the patterns are literal prefixes with two optional literal
pieces (`s?` and `(www\.)?`) followed by a greedy run of word characters,
which admits no backtracking ambiguity, and the scanner mirrors `findall`'s
leftmost non-overlapping semantics.  The `\w` character class is modeled by
its ASCII fragment (the repository only ever feeds it ASCII URLs).
-/

namespace GeminiAdapter

abbrev Str := List Char

/-- Python `needle in haystack` substring test. -/
def containsSub (needle : Str) : Str → Bool
  | [] => needle.isEmpty
  | c :: rest => needle.isPrefixOf (c :: rest) || containsSub needle rest

/-- Python `s.startswith(p)`. -/
def pyStartsWith (p s : String) : Bool :=
  p.data.isPrefixOf s.data

/-- Python `s.split(sep, 1)` when it yields two pieces: the text before the
first occurrence of `sep` and everything after it; `none` when `sep` does
not occur (in which case the source's 2-tuple unpacking raises). -/
def split1 (sep : Char) : Str → Option (Str × Str)
  | [] => none
  | c :: cs =>
    if c = sep then some ([], cs)
    else
      match split1 sep cs with
      | none => none
      | some (a, b) => some (c :: a, b)

/-- Python `s.split(sep)[0]`: the text before the first occurrence of `sep`
(the whole string when `sep` is absent). -/
def takeUntil (sep : Char) : Str → Str
  | [] => []
  | c :: cs => if c = sep then [] else c :: takeUntil sep cs

/-- The text after the first occurrence of `sep`; `none` when absent. -/
def dropThrough (sep : Char) : Str → Option Str
  | [] => none
  | c :: cs => if c = sep then some cs else dropThrough sep cs

/-- Whitespace stripping from the left. -/
def stripLeft (l : Str) : Str := l.dropWhile Char.isWhitespace

/-- Python `s.strip()` (both ends). -/
def pyStripChars (l : Str) : Str :=
  ((stripLeft l).reverse.dropWhile Char.isWhitespace).reverse

/-- Python `s.strip()` on `String`. -/
def pyStrip (s : String) : String := ⟨pyStripChars s.data⟩

/-- One fuel step per examined character; the fuel `s.length` used by
`pyReplace` always suffices because each step consumes at least one
character (`replaceAllAux_stable` below makes the fuel irrelevance exact). -/
def replaceAllAux (old : Str) : Nat → Str → Str
  | 0, s => s
  | n + 1, s =>
    match s with
    | [] => []
    | c :: cs =>
      if (!old.isEmpty) && old.isPrefixOf s then replaceAllAux old n (s.drop old.length)
      else c :: replaceAllAux old n cs

/-- Python `s.replace(old, "")`: removes every (leftmost, non-overlapping)
occurrence of `old`.  The source only calls this with non-empty `old`
(a matched URL). -/
def pyReplace (s old : String) : String :=
  ⟨replaceAllAux old.data s.data.length s.data⟩

/-- Characters matched by the regex class `[\w-]` (ASCII fragment of `\w`). -/
def isWordDash (c : Char) : Bool := c.isAlphanum || c = '_' || c = '-'

/-- Consume the literal `lit` at the head of `s`; `none` on mismatch. -/
def matchLit (lit s : Str) : Option Str :=
  if lit.isPrefixOf s then some (s.drop lit.length) else none

/-- Consume the literal `lit` at the head of `s` if present (an optional
regex group such as `s?` or `(?:www\.)?` followed by a literal the group
cannot prefix, so greedy matching without backtracking is exact). -/
def matchOpt (lit s : Str) : Str :=
  if lit.isPrefixOf s then s.drop lit.length else s

/-- Match one of the four YouTube URL regexes at the head of `s`:
`https?://`, then optionally `www.` (patterns 1, 3, 4 only), then the
pattern-specific literal `lit`, then a non-empty greedy `[\w-]+` run.
Returns the remainder of `s` after the match. -/
def matchPat (www : Bool) (lit : Str) (s : Str) : Option Str :=
  match matchLit ['h', 't', 't', 'p'] s with
  | none => none
  | some r1 =>
    let r2 := matchOpt ['s'] r1
    match matchLit [':', '/', '/'] r2 with
    | none => none
    | some r3 =>
      let r4 := if www then matchOpt ['w', 'w', 'w', '.'] r3 else r3
      match matchLit lit r4 with
      | none => none
      | some r5 =>
        let run := r5.takeWhile isWordDash
        if run.isEmpty then none else some (r5.drop run.length)

/-- `re.findall` scanner for one pattern, with one unit of fuel per examined
character (`findallAux_stable` shows fuel at least the string length is
exact): at each position try the pattern; on a match record the matched
substring and resume after it, otherwise advance one character. -/
def findallAux (www : Bool) (lit : Str) : Nat → Str → List Str
  | 0, _ => []
  | _ + 1, [] => []
  | n + 1, c :: cs =>
    match matchPat www lit (c :: cs) with
    | some r => (c :: cs).take ((c :: cs).length - r.length) :: findallAux www lit n r
    | none => findallAux www lit n cs

/-- `re.findall(pattern, s)` for one of the four YouTube patterns. -/
def findall (www : Bool) (lit : Str) (s : Str) : List Str :=
  findallAux www lit s.length s

/-- `_detect_youtube_urls` (`gemini_native_function.py:129`): run the four
fixed patterns in order over the text and collect every match. -/
def detect_youtube_urls (text : String) : List String :=
  ((findall true "youtube.com/watch?v=".data text.data) ++
      (findall false "youtu.be/".data text.data) ++
      (findall true "youtube.com/embed/".data text.data) ++
      (findall true "youtube.com/v/".data text.data)).map String.mk

/-- Configuration valves of `gemini_native_function.py` that influence
content formatting.  `DEFAULT_VIDEO_FPS` is a Python float used only in an
exact comparison against `1.0`, modeled as `Rat`. -/
structure Valves where
  enableVision : Bool := true
  autoDetectYoutube : Bool := true
  defaultVideoFps : Rat := 1
deriving DecidableEq, Repr

/-- `videoMetadata` attached to a part: either the adapter-built
`{"fps": fps}` object, or a caller-supplied metadata object copied
verbatim (its contents are never inspected, so the payload is opaque). -/
inductive PartMeta where
  | fpsMeta (fps : Rat)
  | rawMeta (payload : String)
deriving DecidableEq, Repr

/-- One Gemini request part as built by `_format_content_for_gemini`. -/
inductive GPart where
  | text (s : String)
  | inlineData (mimeType data : String) (meta : Option PartMeta)
  | fileData (fileUri : String) (meta : Option PartMeta)
deriving DecidableEq, Repr

/-- One item of a multimodal content list.  `imageUrl`/`videoUrl` carry
`none` when the nested dict lacks a `url` key; `other` covers items whose
type tag is none of `text`/`image_url`/`video_url`. -/
inductive ContentItem where
  | text (s : String)
  | imageUrl (url : Option String)
  | videoUrl (url : Option String) (meta : Option String)
  | other (ty : String)
deriving DecidableEq, Repr

/-- A message's `content`: a plain string or a list of typed items. -/
inductive Content where
  | str (s : String)
  | items (l : List ContentItem)
deriving DecidableEq, Repr

/-- The formatter's return shape: a bare part or a list of parts. -/
inductive FormatResult where
  | single (p : GPart)
  | many (ps : List GPart)
deriving DecidableEq, Repr

/-- The return expression used at every exit of the formatters:
`parts if len(parts) > 1 else parts[0] if parts else fallback`. -/
def collapse (parts : List GPart) (fallback : GPart) : FormatResult :=
  if parts.length > 1 then .many parts
  else
    match parts with
    | [p] => .single p
    | _ => .single fallback

/-- `header, data = url.split(",", 1); mime_type = header.split(";")[0].split(":")[1]`.
`none` when the unpacking raises `ValueError` (no comma) or the `[1]` index
raises `IndexError` (no colon in the first `;`-segment). -/
def parseDataUri (url : String) : Option (String × String) :=
  match split1 ',' url.data with
  | none => none
  | some (header, payload) =>
    match dropThrough ':' (takeUntil ';' header) with
    | none => none
    | some t => some (⟨takeUntil ':' t⟩, ⟨payload⟩)

/-- One element of `candidates[0].content.parts` in a parsed response body;
`text` is `none` when the part object has no `"text"` key. -/
structure RespPart where
  text : Option String
deriving DecidableEq, Repr

/-- `candidate["content"]`; `parts` is `none` when the `"parts"` key is absent. -/
structure RespContent where
  parts : Option (List RespPart)
deriving DecidableEq, Repr

/-- One element of `candidates`; `content` is `none` when the key is absent. -/
structure RespCandidate where
  content : Option RespContent
deriving DecidableEq, Repr

/-- A parsed (well-typed) response body; `candidates` is `none` when the
key is absent. -/
structure RespBody where
  candidates : Option (List RespCandidate)
deriving DecidableEq, Repr

/-- The accumulation loop `for part in parts: if "text" in part:
response_text += part["text"]` starting from `""`. -/
def concat_texts (ps : List RespPart) : String :=
  ps.foldl
    (fun acc p =>
      match p.text with
      | some t => acc ++ t
      | none => acc)
    ""

/-- The response-text extraction shared verbatim by the two variants
(`gemini_native_function.py:432` and `gemini_native_complete.py:261`). -/
def decode_response (data : RespBody) : String :=
  match data.candidates with
  | some (c :: _) =>
    match c.content with
    | some ct =>
      match ct.parts with
      | some ps => concat_texts ps
      | none => "No response generated"
    | none => "No response generated"
  | _ => "No response generated"

/-- The text chunks yielded for one decoded SSE line, shared verbatim by the
two variants (`gemini_native_function.py:524` and
`gemini_native_complete.py:349`). -/
def extract_stream_chunks (data : RespBody) : List String :=
  match data.candidates with
  | some (c :: _) =>
    match c.content with
    | some ct =>
      match ct.parts with
      | some ps => ps.filterMap RespPart.text
      | none => []
    | none => []
  | _ => []

/-- Streaming loop over complete SSE lines: each line is either a decoded
body (`json.loads` succeeded) or `none` (a `JSONDecodeError`, silently
skipped); each success yields its parts' text fields in order. -/
def stream_chunks : List (Option RespBody) → List String
  | [] => []
  | o :: ls =>
    (match o with
     | some d => extract_stream_chunks d
     | none => []) ++ stream_chunks ls

namespace NativeFunction

/-- `_convert_role` (`gemini_native_function.py:120`): dictionary lookup
with default `"user"`. -/
def convert_role (role : String) : String :=
  if role = "user" then "user"
  else if role = "assistant" then "model"
  else if role = "system" then "user"
  else "user"

/-- The URL-extraction loop (`gemini_native_function.py:153` and the
identical copy at line 202): one `file_data` part per URL, with
`video_metadata.fps` only when the valve differs from `1.0`; each URL is
removed from the running text, which is stripped after each removal.
Returns the built parts and the final remaining text. -/
def yt_loop (v : Valves) : List String → String → List GPart × String
  | [], remaining => ([], remaining)
  | url :: urls, remaining =>
    let p := GPart.fileData url
      (if v.defaultVideoFps ≠ 1 then some (.fpsMeta v.defaultVideoFps) else none)
    let rest := yt_loop v urls (pyStrip (pyReplace remaining url))
    (p :: rest.1, rest.2)

/-- URL extraction over a text followed by the trailing-text append
(`gemini_native_function.py:149` and lines 199 onward). -/
def yt_text_parts (v : Valves) (s : String) : List GPart :=
  let res := yt_loop v (detect_youtube_urls s) s
  res.1 ++ (if res.2 ≠ "" then [GPart.text res.2] else [])

/-- Per-item conversion of the vision-enabled multimodal loop
(`gemini_native_function.py:193`).  Items falling through every branch
contribute no part. -/
def item_parts (v : Valves) : ContentItem → List GPart
  | .text s =>
    if (!(detect_youtube_urls s).isEmpty) && v.autoDetectYoutube then
      yt_text_parts v s
    else [.text s]
  | .imageUrl none => []
  | .imageUrl (some url) =>
    if pyStartsWith "data:image" url then
      match parseDataUri url with
      | some (m, d) => [.inlineData m d none]
      | none => [.text "[Error processing image]"]
    else [.text ("[Image URL: " ++ url ++ "]")]
  | .videoUrl none _ => []
  | .videoUrl (some url) meta =>
    if containsSub "youtube.com/watch".data url.data ||
        containsSub "youtu.be/".data url.data then
      [.fileData url (meta.map PartMeta.rawMeta)]
    else if pyStartsWith "data:video" url then
      match parseDataUri url with
      | some (m, d) => [.inlineData m d (meta.map PartMeta.rawMeta)]
      | none => [.text "[Error processing video]"]
    else [.text ("[Video URL: " ++ url ++ "]")]
  | .other _ => []

/-- The vision-enabled multimodal loop (`gemini_native_function.py:193`). -/
def enabled_loop (v : Valves) : List ContentItem → List GPart
  | [] => []
  | i :: l => item_parts v i ++ enabled_loop v l

/-- Per-item conversion of the vision-disabled loop
(`gemini_native_function.py:184`). -/
def disabled_item : ContentItem → List GPart
  | .text s => [.text s]
  | .imageUrl _ => [.text "[Image content not processed - vision disabled]"]
  | .videoUrl _ _ => [.text "[Video content not processed - vision disabled]"]
  | .other _ => []

/-- The vision-disabled loop (`gemini_native_function.py:184`). -/
def disabled_loop : List ContentItem → List GPart
  | [] => []
  | i :: l => disabled_item i ++ disabled_loop l

/-- The parts list computed for item-list content before the collapsing
return expression: the vision valve selects one of the two loops. -/
def computed_parts (v : Valves) (l : List ContentItem) : List GPart :=
  if !v.enableVision then disabled_loop l else enabled_loop v l

/-- `_format_content_for_gemini` (`gemini_native_function.py:143`).  The
`role` argument is accepted and ignored exactly as in the source. -/
def format_content_for_gemini (v : Valves) (content : Content) (role : String) :
    FormatResult :=
  match content with
  | .str s =>
    if (!(detect_youtube_urls s).isEmpty) && v.enableVision && v.autoDetectYoutube then
      collapse (yt_text_parts v s) (.text s)
    else .single (.text s)
  | .items l => collapse (computed_parts v l) (.text "")

/-- `_handle_normal` (`gemini_native_function.py:391`), as a function of the
HTTP status, the raw response text, and the parsed body (used only when the
status is 200 — the source parses the raw text with `json.loads`). -/
def handle_normal (status : Nat) (rawBody : String) (parsed : RespBody) : String :=
  if status ≠ 200 then
    "Gemini API Error: HTTP " ++ toString status ++ ": " ++ rawBody
  else decode_response parsed

end NativeFunction

namespace NativeComplete

/-- `_convert_role` (`gemini_native_complete.py:92`), identical to the other
variant. -/
def convert_role (role : String) : String :=
  if role = "user" then "user"
  else if role = "assistant" then "model"
  else if role = "system" then "user"
  else "user"

/-- Per-item conversion of `gemini_native_complete.py:109`: only `text` and
`image_url` items (with a `url` key) are handled, everything else falls
through the `if`/`elif` chain and contributes nothing.  `none` models the
uncaught `ValueError`/`IndexError` raised on a malformed `data:image` URI
(this variant has no `try`/`except` around the split). -/
def item_parts : ContentItem → Option (List GPart)
  | .text s => some [.text s]
  | .imageUrl (some url) =>
    if pyStartsWith "data:image" url then
      match parseDataUri url with
      | some (m, d) => some [.inlineData m d none]
      | none => none
    else some [.text ("[Image URL: " ++ url ++ "]")]
  | _ => some []

/-- The multimodal loop of `gemini_native_complete.py:109`; the first raising
item aborts the whole conversion. -/
def items_loop : List ContentItem → Option (List GPart)
  | [] => some []
  | i :: l =>
    match item_parts i with
    | none => none
    | some ps =>
      match items_loop l with
      | none => none
      | some rest => some (ps ++ rest)

/-- `_format_content_for_gemini` (`gemini_native_complete.py:101`): a plain
string passes through as one text part, with no YouTube detection. -/
def format_content_for_gemini (content : Content) (role : String) :
    Option FormatResult :=
  match content with
  | .str s => some (.single (.text s))
  | .items l => (items_loop l).map (fun ps => collapse ps (.text ""))

/-- `_handle_normal` (`gemini_native_complete.py:223`). -/
def handle_normal (status : Nat) (rawBody : String) (parsed : RespBody) : String :=
  if status ≠ 200 then
    "Error: HTTP " ++ toString status ++ ": " ++ rawBody
  else decode_response parsed

end NativeComplete

/-! Specification-side formulations used by the theorem statements, kept
separate from the code-side loop definitions above. -/

/-- The parts sequence denoted by a formatter result (a bare part counts as
a one-element sequence). -/
def partsOf : FormatResult → List GPart
  | .single p => [p]
  | .many ps => ps

/-- In-order concatenation of every `text` field of a parts list (parts
without a `text` key contribute nothing). -/
def textsConcat : List RespPart → String
  | [] => ""
  | p :: ps => (p.text.getD "") ++ textsConcat ps

/-- Concatenation of a list of chunks. -/
def strConcat : List String → String
  | [] => ""
  | s :: l => s ++ strConcat l

/-- The residual text left after removing (and stripping around) each
matched URL in order, as the extraction loop computes it. -/
def residual_text : List String → String → String
  | [], t => t
  | u :: us, t => residual_text us (pyStrip (pyReplace t u))

/-- Items whose type tag the `gemini_native_complete.py` formatter does not
handle (every `video_url` item and every unknown tag). -/
def dropped_by_complete : ContentItem → Bool
  | .videoUrl _ _ => true
  | .other _ => true
  | _ => false

/-! Concrete response bodies used by the spec's end-to-end scenarios. -/

/-- `candidates[0].content.parts` of scenario 1's mocked 200 response. -/
def scenario1_parts : List RespPart := [⟨some "Hi there"⟩]

/-- Scenario 1's mocked 200 response body, parsed. -/
def scenario1_resp : RespBody := ⟨some [⟨some ⟨some scenario1_parts⟩⟩]⟩

/-- Scenario 1's mocked 200 response body, raw. -/
def scenario1_body : String :=
  "\x7b\"candidates\":[\x7b\"content\":\x7b\"parts\":[\x7b\"text\":\"Hi there\"\x7d]\x7d\x7d]\x7d"

/-- The decoded payload of scenario 4's first SSE line. -/
def sse_hel_resp : RespBody := ⟨some [⟨some ⟨some [⟨some "Hel"⟩]⟩⟩]⟩

/-- The decoded payload of scenario 4's second SSE line. -/
def sse_lo_resp : RespBody := ⟨some [⟨some ⟨some [⟨some "lo"⟩]⟩⟩]⟩

/-- A response body with a present but empty `candidates` array. -/
def empty_cand_resp : RespBody := ⟨some []⟩

section SharedLemmas

theorem isPrefixOf_self_append (p t : Str) : p.isPrefixOf (p ++ t) = true := by
  induction p with
  | nil => simp [List.isPrefixOf]
  | cons c cs ih => simp [List.isPrefixOf, ih]

theorem isPrefixOf_length {p s : Str} (h : p.isPrefixOf s = true) :
    p.length ≤ s.length := by
  induction p generalizing s with
  | nil => simp
  | cons c cs ih =>
    cases s with
    | nil => simp [List.isPrefixOf] at h
    | cons d ds =>
      simp only [List.isPrefixOf, Bool.and_eq_true] at h
      have := ih h.2
      simp only [List.length_cons]
      omega

theorem isPrefixOf_eq_append {p s : Str} (h : p.isPrefixOf s = true) :
    s = p ++ s.drop p.length := by
  induction p generalizing s with
  | nil => simp
  | cons c cs ih =>
    cases s with
    | nil => simp [List.isPrefixOf] at h
    | cons d ds =>
      simp only [List.isPrefixOf, Bool.and_eq_true, beq_iff_eq] at h
      obtain ⟨rfl, h2⟩ := h
      simpa using ih h2

theorem containsSub_of_mid (xs n ys : Str) :
    containsSub n (xs ++ (n ++ ys)) = true := by
  induction xs with
  | nil =>
    simp only [List.nil_append]
    cases hn : n ++ ys with
    | nil =>
      have hn0 : n = [] := by cases n <;> simp_all
      subst hn0
      simp [containsSub, List.isEmpty]
    | cons c cs =>
      simp only [containsSub, Bool.or_eq_true]
      exact Or.inl (by rw [← hn]; exact isPrefixOf_self_append n ys)
  | cons c cs ih =>
    simp only [List.cons_append, containsSub, Bool.or_eq_true]
    exact Or.inr ih

theorem split1_append_of_not_mem {sep : Char} {xs : Str} (h : sep ∉ xs) (ys : Str) :
    split1 sep (xs ++ ys) =
      (split1 sep ys).map (fun p => (xs ++ p.1, p.2)) := by
  induction xs with
  | nil =>
    simp only [List.nil_append]
    cases split1 sep ys <;> rfl
  | cons c cs ih =>
    simp only [List.mem_cons, not_or] at h
    have hc : ¬ c = sep := fun hh => h.1 hh.symm
    simp only [List.cons_append, split1, if_neg hc, List.append_eq, ih h.2]
    cases split1 sep ys <;> rfl

theorem takeUntil_append_of_not_mem {sep : Char} {xs : Str} (h : sep ∉ xs) (ys : Str) :
    takeUntil sep (xs ++ ys) = xs ++ takeUntil sep ys := by
  induction xs with
  | nil => simp
  | cons c cs ih =>
    simp only [List.mem_cons, not_or] at h
    have hc : ¬ c = sep := fun hh => h.1 hh.symm
    simp only [List.cons_append, takeUntil, if_neg hc, List.append_eq, ih h.2]

theorem takeUntil_nil (sep : Char) : takeUntil sep [] = [] := rfl

theorem dropThrough_append_of_not_mem {sep : Char} {xs : Str} (h : sep ∉ xs) (ys : Str) :
    dropThrough sep (xs ++ ys) = dropThrough sep ys := by
  induction xs with
  | nil => simp
  | cons c cs ih =>
    simp only [List.mem_cons, not_or] at h
    have hc : ¬ c = sep := fun hh => h.1 hh.symm
    simp only [List.cons_append, dropThrough, if_neg hc, List.append_eq, ih h.2]

theorem matchLit_length {lit s r : Str} (h : matchLit lit s = some r) :
    r.length + lit.length = s.length := by
  unfold matchLit at h
  split at h
  · rename_i hp
    have := isPrefixOf_length hp
    simp only [Option.some.injEq] at h
    subst h
    simp only [List.length_drop]
    omega
  · exact absurd h (by simp)

theorem matchOpt_length (lit s : Str) : (matchOpt lit s).length ≤ s.length := by
  unfold matchOpt
  split
  · simp only [List.length_drop]; omega
  · omega

theorem matchPat_length {www : Bool} {lit s r : Str} (h : matchPat www lit s = some r) :
    r.length < s.length := by
  unfold matchPat at h
  cases h1 : matchLit ['h', 't', 't', 'p'] s with
  | none => rw [h1] at h; exact absurd h (by simp)
  | some r1 =>
    rw [h1] at h
    have hl1 := matchLit_length h1
    simp only at h
    cases h3 : matchLit [':', '/', '/'] (matchOpt ['s'] r1) with
    | none => rw [h3] at h; exact absurd h (by simp)
    | some r3 =>
      rw [h3] at h
      have hl2 := matchOpt_length ['s'] r1
      have hl3 := matchLit_length h3
      simp only at h
      cases h5 : matchLit lit (if www then matchOpt ['w', 'w', 'w', '.'] r3 else r3) with
      | none => rw [h5] at h; exact absurd h (by simp)
      | some r5 =>
        rw [h5] at h
        have hl4 : (if www then matchOpt ['w', 'w', 'w', '.'] r3 else r3).length ≤ r3.length := by
          split
          · exact matchOpt_length _ _
          · omega
        have hl5 := matchLit_length h5
        simp only at h
        split at h
        · exact absurd h (by simp)
        · simp only [Option.some.injEq] at h
          subst h
          simp only [List.length_drop]
          simp only [List.length_cons, List.length_nil] at hl1 hl3
          omega

theorem findallAux_stable (www : Bool) (lit : Str) :
    ∀ n m s, s.length ≤ n → s.length ≤ m →
      findallAux www lit n s = findallAux www lit m s := by
  intro n
  induction n with
  | zero =>
    intro m s hn _
    have : s = [] := by cases s <;> simp_all
    subst this
    cases m <;> rfl
  | succ n ih =>
    intro m s hn hm
    cases s with
    | nil => cases m <;> rfl
    | cons c cs =>
      cases m with
      | zero => simp at hm
      | succ m =>
        cases hmp : matchPat www lit (c :: cs) with
        | some r =>
          have hr := matchPat_length hmp
          simp only [List.length_cons] at hn hm hr
          simp only [findallAux, hmp]
          rw [ih m r (by omega) (by omega)]
        | none =>
          simp only [List.length_cons] at hn hm
          simp only [findallAux, hmp]
          rw [ih m cs (by omega) (by omega)]

theorem replaceAllAux_stable (old : Str) :
    ∀ n m s, s.length ≤ n → s.length ≤ m →
      replaceAllAux old n s = replaceAllAux old m s := by
  intro n
  induction n with
  | zero =>
    intro m s hn _
    have : s = [] := by cases s <;> simp_all
    subst this
    cases m <;> rfl
  | succ n ih =>
    intro m s hn hm
    cases s with
    | nil => cases m <;> rfl
    | cons c cs =>
      cases m with
      | zero => simp at hm
      | succ m =>
        cases hp : (!old.isEmpty) && old.isPrefixOf (c :: cs) with
        | true =>
          have hne : old ≠ [] := by
            intro h0
            subst h0
            simp at hp
          have hlen : 1 ≤ old.length := by
            cases old with
            | nil => exact absurd rfl hne
            | cons a as => simp
          simp only [List.length_cons] at hn hm
          have hd : ((c :: cs).drop old.length).length ≤ cs.length := by
            simp only [List.length_drop, List.length_cons]
            omega
          simp only [replaceAllAux, hp, if_pos]
          exact ih m ((c :: cs).drop old.length) (by omega) (by omega)
        | false =>
          simp only [List.length_cons] at hn hm
          simp only [replaceAllAux, hp, Bool.false_eq_true, if_false]
          rw [ih m cs (by omega) (by omega)]

theorem takeUntil_eq_self_of_not_mem {sep : Char} {xs : Str} (h : sep ∉ xs) :
    takeUntil sep xs = xs := by
  have := takeUntil_append_of_not_mem h []
  simpa [takeUntil] using this

theorem str_eq_of_data {a b : String} (h : a.data = b.data) : a = b := by
  cases a
  cases b
  exact congrArg String.mk h

theorem concat_texts_from (ps : List RespPart) :
    ∀ acc : String,
      ps.foldl
          (fun acc p =>
            match p.text with
            | some t => acc ++ t
            | none => acc)
          acc = acc ++ textsConcat ps := by
  induction ps with
  | nil => intro acc; simp [textsConcat]
  | cons p ps ih =>
    intro acc
    cases hp : p.text with
    | some t =>
      simp only [List.foldl_cons, hp, ih, textsConcat, Option.getD]
      rw [String.append_assoc]
    | none =>
      simp only [List.foldl_cons, hp, ih, textsConcat, Option.getD]
      rw [String.empty_append]

theorem concat_texts_eq (ps : List RespPart) : concat_texts ps = textsConcat ps := by
  unfold concat_texts
  rw [concat_texts_from ps "", String.empty_append]

theorem strConcat_filterMap (ps : List RespPart) :
    strConcat (ps.filterMap RespPart.text) = textsConcat ps := by
  induction ps with
  | nil => rfl
  | cons p ps ih =>
    cases hp : p.text with
    | some t => simp [List.filterMap_cons, hp, strConcat, textsConcat, ih, Option.getD]
    | none => simp [List.filterMap_cons, hp, textsConcat, ih, Option.getD, String.empty_append]

theorem collapse_of_two {ps : List GPart} (fb : GPart) (h : 2 ≤ ps.length) :
    collapse ps fb = .many ps := by
  unfold collapse
  rw [if_pos (by omega)]

theorem collapse_one (p fb : GPart) : collapse [p] fb = .single p := rfl

theorem collapse_nil (fb : GPart) : collapse [] fb = .single fb := rfl

theorem collapse_many_imp {ps qs : List GPart} {fb : GPart}
    (h : collapse ps fb = .many qs) : 2 ≤ qs.length := by
  unfold collapse at h
  split at h
  · rename_i hl
    cases h
    omega
  · split at h <;> exact absurd h (by simp)

theorem mem_partsOf_collapse {x fb : GPart} {ps : List GPart}
    (h : x ∈ partsOf (collapse ps fb)) : x = fb ∨ x ∈ ps := by
  unfold collapse at h
  by_cases hl : ps.length > 1
  · rw [if_pos hl] at h
    exact Or.inr h
  · rw [if_neg hl] at h
    cases ps with
    | nil =>
      simp only [partsOf, List.mem_singleton] at h
      exact Or.inl h
    | cons p rest =>
      cases rest with
      | nil =>
        simp only [partsOf, List.mem_singleton] at h
        exact Or.inr (by simp [h])
      | cons q rest2 => simp at hl

theorem containsSub_suffix (xs n : Str) : containsSub n (xs ++ n) = true := by
  have := containsSub_of_mid xs n []
  simpa using this

theorem pyStartsWith_data_image (m d : String) :
    pyStartsWith "data:image" ("data:image/" ++ m ++ ";base64," ++ d) = true := by
  unfold pyStartsWith
  have h1 : ("data:image/" ++ m ++ ";base64," ++ d).data
      = "data:image".data ++ ('/' :: (m.data ++ (";base64,".data ++ d.data))) := by
    simp only [String.data_append, List.append_assoc]
    rfl
  rw [h1]
  exact isPrefixOf_self_append _ _

theorem parseDataUri_valid (m d : String)
    (hsemi : ';' ∉ m.data) (hcolon : ':' ∉ m.data) (hcomma : ',' ∉ m.data) :
    parseDataUri ("data:image/" ++ m ++ ";base64," ++ d) =
      some ("image/" ++ m, d) := by
  have hu : ("data:image/" ++ m ++ ";base64," ++ d).data
      = "data:image/".data ++ (m.data ++ (";base64".data ++ (',' :: d.data))) := by
    simp only [String.data_append, List.append_assoc]
    rfl
  have h1 : split1 ',' ("data:image/" ++ m ++ ";base64," ++ d).data
      = some ("data:image/".data ++ (m.data ++ ";base64".data), d.data) := by
    rw [hu]
    rw [split1_append_of_not_mem (show ',' ∉ ("data:image/".data : Str) from by decide)]
    rw [split1_append_of_not_mem hcomma]
    rw [split1_append_of_not_mem (show ',' ∉ (";base64".data : Str) from by decide)]
    rw [show split1 ',' (',' :: d.data) = some ([], d.data) from by simp [split1]]
    simp
  have h2 : takeUntil ';' ("data:image/".data ++ (m.data ++ ";base64".data))
      = "data:image/".data ++ m.data := by
    rw [takeUntil_append_of_not_mem (show ';' ∉ ("data:image/".data : Str) from by decide)]
    rw [takeUntil_append_of_not_mem hsemi]
    rw [show takeUntil ';' (";base64".data : Str) = [] from by decide]
    rw [List.append_nil]
  have h3 : dropThrough ':' ("data:image/".data ++ m.data)
      = some ("image/".data ++ m.data) := by
    rw [show ("data:image/".data : Str) ++ m.data
        = "data".data ++ (':' :: ("image/".data ++ m.data)) from rfl]
    rw [dropThrough_append_of_not_mem (show ':' ∉ ("data".data : Str) from by decide)]
    simp [dropThrough]
  have h4 : takeUntil ':' ("image/".data ++ m.data) = "image/".data ++ m.data := by
    rw [takeUntil_append_of_not_mem (show ':' ∉ ("image/".data : Str) from by decide)]
    rw [takeUntil_eq_self_of_not_mem hcolon]
  simp only [parseDataUri, h1, h2, h3, h4]
  rw [show (⟨"image/".data ++ m.data⟩ : String) = "image/" ++ m from
      str_eq_of_data (by simp [String.data_append])]

theorem yt_loop_eq (v : Valves) :
    ∀ (urls : List String) (t : String),
      NativeFunction.yt_loop v urls t =
        (urls.map fun u =>
          GPart.fileData u
            (if v.defaultVideoFps ≠ 1 then some (.fpsMeta v.defaultVideoFps) else none),
         residual_text urls t) := by
  intro urls
  induction urls with
  | nil => intro t; rfl
  | cons u us ih =>
    intro t
    simp only [NativeFunction.yt_loop, ih, residual_text, List.map_cons]

end SharedLemmas

/-- C9: the role mapper of both adapter variants is a total pure function:
`"user"` maps to `"user"`, `"assistant"` to `"model"`, `"system"` to
`"user"`, and every other input string to `"user"`. -/
theorem claim_C9_role_mapping :
    NativeFunction.convert_role "user" = "user" ∧
    NativeFunction.convert_role "assistant" = "model" ∧
    NativeFunction.convert_role "system" = "user" ∧
    NativeComplete.convert_role "user" = "user" ∧
    NativeComplete.convert_role "assistant" = "model" ∧
    NativeComplete.convert_role "system" = "user" ∧
    ∀ role : String, role ≠ "user" → role ≠ "assistant" → role ≠ "system" →
      NativeFunction.convert_role role = "user" ∧
      NativeComplete.convert_role role = "user" := by
  refine ⟨by decide, by decide, by decide, by decide, by decide, by decide, ?_⟩
  intro role h1 h2 h3
  constructor
  · unfold NativeFunction.convert_role
    rw [if_neg h1, if_neg h2, if_neg h3]
  · unfold NativeComplete.convert_role
    rw [if_neg h1, if_neg h2, if_neg h3]

theorem claim_C9_role_mapping_witness :
    NativeFunction.convert_role "tool" = "user" ∧
    NativeComplete.convert_role "tool" = "user" :=
  claim_C9_role_mapping.2.2.2.2.2.2 "tool" (by decide) (by decide) (by decide)

/-- C4: for every non-2xx HTTP status the non-streaming handler of either
variant returns (without raising) an error string that contains the decimal
status code and the raw response body as substrings. -/
theorem claim_C4_upstream_error :
    ∀ (status : Nat) (rawBody : String) (parsed : RespBody),
      status < 200 ∨ 300 ≤ status →
      containsSub (toString status).data
          (NativeFunction.handle_normal status rawBody parsed).data = true ∧
      containsSub rawBody.data
          (NativeFunction.handle_normal status rawBody parsed).data = true ∧
      containsSub (toString status).data
          (NativeComplete.handle_normal status rawBody parsed).data = true ∧
      containsSub rawBody.data
          (NativeComplete.handle_normal status rawBody parsed).data = true := by
  intro status rawBody parsed hst
  have hne : status ≠ 200 := by omega
  unfold NativeFunction.handle_normal NativeComplete.handle_normal
  rw [if_pos hne, if_pos hne]
  refine ⟨?_, ?_, ?_, ?_⟩
  · simp only [String.data_append, List.append_assoc]
    exact containsSub_of_mid _ _ _
  · simp only [String.data_append, List.append_assoc]
    have := containsSub_suffix
      ("Gemini API Error: HTTP ".data ++ ((toString status).data ++ ": ".data)) rawBody.data
    simpa [List.append_assoc] using this
  · simp only [String.data_append, List.append_assoc]
    exact containsSub_of_mid _ _ _
  · simp only [String.data_append, List.append_assoc]
    have := containsSub_suffix
      ("Error: HTTP ".data ++ ((toString status).data ++ ": ".data)) rawBody.data
    simpa [List.append_assoc] using this

theorem claim_C4_upstream_error_witness :
    containsSub (toString 403).data
        (NativeFunction.handle_normal 403 "quota exceeded" ⟨none⟩).data = true ∧
    containsSub "quota exceeded".data
        (NativeFunction.handle_normal 403 "quota exceeded" ⟨none⟩).data = true ∧
    containsSub (toString 403).data
        (NativeComplete.handle_normal 403 "quota exceeded" ⟨none⟩).data = true ∧
    containsSub "quota exceeded".data
        (NativeComplete.handle_normal 403 "quota exceeded" ⟨none⟩).data = true :=
  claim_C4_upstream_error 403 "quota exceeded" ⟨none⟩ (by omega)

/-- C1 (amended: the source treats exactly status 200 as success, not every
2xx status — see the counterexample at 201): on an HTTP 200 response the
non-streaming handler of either variant returns the in-order concatenation
of the `text` fields of `candidates[0].content.parts`; when the body has no
candidates (absent key or empty array) or the first candidate lacks
`content` or `parts`, it returns the sentinel `"No response generated"`
without failing; spec scenario 1 holds. -/
theorem claim_C1_normal_decode :
    (∀ (rawBody : String) (r : RespBody) (c : RespCandidate)
        (cs : List RespCandidate) (ct : RespContent) (ps : List RespPart),
        r.candidates = some (c :: cs) → c.content = some ct → ct.parts = some ps →
        NativeFunction.handle_normal 200 rawBody r = textsConcat ps ∧
        NativeComplete.handle_normal 200 rawBody r = textsConcat ps) ∧
    (∀ (rawBody : String) (r : RespBody),
        (r.candidates = none ∨ r.candidates = some [] ∨
          ∃ c cs, r.candidates = some (c :: cs) ∧
            (c.content = none ∨ ∃ ct, c.content = some ct ∧ ct.parts = none)) →
        NativeFunction.handle_normal 200 rawBody r = "No response generated" ∧
        NativeComplete.handle_normal 200 rawBody r = "No response generated") ∧
    NativeFunction.handle_normal 200 scenario1_body scenario1_resp = "Hi there" := by
  refine ⟨?_, ?_, by decide⟩
  · intro rawBody r c cs ct ps h1 h2 h3
    unfold NativeFunction.handle_normal NativeComplete.handle_normal
    rw [if_neg (by omega), if_neg (by omega)]
    constructor <;> simp [decode_response, h1, h2, h3, concat_texts_eq]
  · intro rawBody r hshape
    unfold NativeFunction.handle_normal NativeComplete.handle_normal
    rw [if_neg (by omega), if_neg (by omega)]
    rcases hshape with h | h | ⟨c, cs, h1, h2⟩
    · constructor <;> simp [decode_response, h]
    · constructor <;> simp [decode_response, h]
    · rcases h2 with h2 | ⟨ct, h2, h3⟩
      · constructor <;> simp [decode_response, h1, h2]
      · constructor <;> simp [decode_response, h1, h2, h3]

theorem claim_C1_normal_decode_witness :
    NativeFunction.handle_normal 200 "raw" scenario1_resp = textsConcat scenario1_parts ∧
    NativeComplete.handle_normal 200 "raw" scenario1_resp = textsConcat scenario1_parts :=
  claim_C1_normal_decode.1 "raw" scenario1_resp ⟨some ⟨some scenario1_parts⟩⟩ []
    ⟨some scenario1_parts⟩ scenario1_parts rfl rfl rfl

/-- C1 counterexample: status 201 is a 2xx status, yet the handler returns
the upstream-error string instead of the concatenated candidate text. -/
theorem claim_C1_counterexample :
    (200 ≤ 201 ∧ 201 < 300) ∧
    NativeFunction.handle_normal 201 "\x7b\x7d" scenario1_resp ≠
      textsConcat scenario1_parts := by
  exact ⟨by omega, by decide⟩

/-- C2 (amended: restricted to responses whose first candidate carries
`content` with `parts`; a response without candidate data yields no stream
chunks while the non-streaming decoder returns the sentinel — see the
counterexample): for such a response, the concatenation of the chunks the
streaming loop yields for it as one decoded SSE line equals the
non-streaming decode result, and spec scenario 4 yields exactly `"Hel"`
then `"lo"`. -/
theorem claim_C2_stream_matches_normal :
    (∀ (r : RespBody) (c : RespCandidate) (cs : List RespCandidate)
        (ct : RespContent) (ps : List RespPart),
        r.candidates = some (c :: cs) → c.content = some ct → ct.parts = some ps →
        strConcat (stream_chunks [some r]) = decode_response r) ∧
    stream_chunks [some sse_hel_resp, some sse_lo_resp] = ["Hel", "lo"] := by
  refine ⟨?_, by decide⟩
  intro r c cs ct ps h1 h2 h3
  simp only [stream_chunks, extract_stream_chunks, decode_response, h1, h2, h3,
    List.append_nil, concat_texts_eq]
  exact strConcat_filterMap ps

theorem claim_C2_stream_matches_normal_witness :
    strConcat (stream_chunks [some scenario1_resp]) = decode_response scenario1_resp :=
  claim_C2_stream_matches_normal.1 scenario1_resp ⟨some ⟨some scenario1_parts⟩⟩ []
    ⟨some scenario1_parts⟩ scenario1_parts rfl rfl rfl

/-- C2 counterexample: on a response with an empty `candidates` array the
streaming loop yields nothing (concatenation `""`) while the non-streaming
decoder returns the sentinel string. -/
theorem claim_C2_counterexample :
    strConcat (stream_chunks [some empty_cand_resp]) ≠ decode_response empty_cand_resp := by
  decide

/-- C7: the formatters' output obeys the collapsing rule: a parts sequence
is returned as a sequence only when it has at least two elements; a
one-element computed parts list is returned as the bare part; an empty
computed parts list becomes a single empty text part. -/
theorem claim_C7_collapse_rule :
    (∀ (v : Valves) (c : Content) (role : String) (ps : List GPart),
        NativeFunction.format_content_for_gemini v c role = .many ps → 2 ≤ ps.length) ∧
    (∀ (v : Valves) (l : List ContentItem) (role : String),
        2 ≤ (NativeFunction.computed_parts v l).length →
        NativeFunction.format_content_for_gemini v (.items l) role =
          .many (NativeFunction.computed_parts v l)) ∧
    (∀ (v : Valves) (l : List ContentItem) (role : String) (p : GPart),
        NativeFunction.computed_parts v l = [p] →
        NativeFunction.format_content_for_gemini v (.items l) role = .single p) ∧
    (∀ (v : Valves) (l : List ContentItem) (role : String),
        NativeFunction.computed_parts v l = [] →
        NativeFunction.format_content_for_gemini v (.items l) role =
          .single (.text "")) ∧
    (∀ (c : Content) (role : String) (ps : List GPart),
        NativeComplete.format_content_for_gemini c role = some (.many ps) →
        2 ≤ ps.length) ∧
    (∀ (l : List ContentItem) (role : String) (ps : List GPart),
        NativeComplete.items_loop l = some ps → 2 ≤ ps.length →
        NativeComplete.format_content_for_gemini (.items l) role = some (.many ps)) ∧
    (∀ (l : List ContentItem) (role : String) (p : GPart),
        NativeComplete.items_loop l = some [p] →
        NativeComplete.format_content_for_gemini (.items l) role =
          some (.single p)) ∧
    (∀ (l : List ContentItem) (role : String),
        NativeComplete.items_loop l = some [] →
        NativeComplete.format_content_for_gemini (.items l) role =
          some (.single (.text ""))) := by
  refine ⟨?_, ?_, ?_, ?_, ?_, ?_, ?_, ?_⟩
  · intro v c role ps h
    cases c with
    | str s =>
      simp only [NativeFunction.format_content_for_gemini] at h
      split at h
      · exact collapse_many_imp h
      · exact absurd h (by simp)
    | items l =>
      simp only [NativeFunction.format_content_for_gemini] at h
      exact collapse_many_imp h
  · intro v l role h
    simp only [NativeFunction.format_content_for_gemini]
    exact collapse_of_two _ h
  · intro v l role p h
    simp only [NativeFunction.format_content_for_gemini, h]
    rfl
  · intro v l role h
    simp only [NativeFunction.format_content_for_gemini, h]
    rfl
  · intro c role ps h
    cases c with
    | str s =>
      simp only [NativeComplete.format_content_for_gemini, Option.some.injEq] at h
      exact absurd h (by simp)
    | items l =>
      simp only [NativeComplete.format_content_for_gemini] at h
      cases hl : NativeComplete.items_loop l with
      | none => rw [hl] at h; exact absurd h (by simp)
      | some qs =>
        rw [hl] at h
        simp only [Option.map_some', Option.some.injEq] at h
        exact collapse_many_imp h
  · intro l role ps h1 h2
    simp only [NativeComplete.format_content_for_gemini, h1, Option.map_some',
      collapse_of_two _ h2]
  · intro l role p h
    simp only [NativeComplete.format_content_for_gemini, h]
    rfl
  · intro l role h
    simp only [NativeComplete.format_content_for_gemini, h]
    rfl

theorem claim_C7_collapse_rule_witness :
    NativeFunction.format_content_for_gemini ⟨true, true, 1⟩ (.items []) "user" =
      .single (.text "") :=
  claim_C7_collapse_rule.2.2.2.1 ⟨true, true, 1⟩ [] "user" rfl

/-- C8: with vision disabled, each `image_url` or `video_url` item of a
multimodal list is replaced by its fixed text placeholder, each `text` item
passes through as a text part (unknown item types contribute nothing), and
no `inlineData` part ever appears in the formatter's output. -/
theorem claim_C8_vision_disabled :
    ∀ v : Valves, v.enableVision = false →
      (∀ l : List ContentItem,
        NativeFunction.computed_parts v l =
          l.flatMap fun i =>
            match i with
            | .text s => [GPart.text s]
            | .imageUrl _ =>
              [GPart.text "[Image content not processed - vision disabled]"]
            | .videoUrl _ _ =>
              [GPart.text "[Video content not processed - vision disabled]"]
            | .other _ => []) ∧
      (∀ (l : List ContentItem) (role m d : String) (pm : Option PartMeta),
        GPart.inlineData m d pm ∉
          partsOf (NativeFunction.format_content_for_gemini v (.items l) role)) := by
  intro v hv
  have hdis : ∀ l : List ContentItem,
      NativeFunction.disabled_loop l =
        l.flatMap fun i =>
          match i with
          | .text s => [GPart.text s]
          | .imageUrl _ =>
            [GPart.text "[Image content not processed - vision disabled]"]
          | .videoUrl _ _ =>
            [GPart.text "[Video content not processed - vision disabled]"]
          | .other _ => [] := by
    intro l
    induction l with
    | nil => rfl
    | cons i t ih =>
      simp only [NativeFunction.disabled_loop, List.flatMap_cons, ih]
      cases i <;> rfl
  have hparts : ∀ l : List ContentItem,
      NativeFunction.computed_parts v l =
        l.flatMap fun i =>
          match i with
          | .text s => [GPart.text s]
          | .imageUrl _ =>
            [GPart.text "[Image content not processed - vision disabled]"]
          | .videoUrl _ _ =>
            [GPart.text "[Video content not processed - vision disabled]"]
          | .other _ => [] := by
    intro l
    unfold NativeFunction.computed_parts
    rw [hv]
    simpa using hdis l
  refine ⟨hparts, ?_⟩
  intro l role m d pm hmem
  unfold NativeFunction.format_content_for_gemini at hmem
  rcases mem_partsOf_collapse hmem with h | h
  · exact absurd h (by simp)
  · rw [hparts l] at h
    rcases List.mem_flatMap.mp h with ⟨i, _, hin⟩
    cases i <;> simp_all

theorem claim_C8_vision_disabled_witness :
    GPart.inlineData "image/png" "AAAA" none ∉
      partsOf (NativeFunction.format_content_for_gemini ⟨false, true, 1⟩
        (.items [.imageUrl (some "data:image/png;base64,AAAA"), .text "hi"]) "user") :=
  (claim_C8_vision_disabled ⟨false, true, 1⟩ rfl).2
    [.imageUrl (some "data:image/png;base64,AAAA"), .text "hi"] "user" "image/png" "AAAA" none

/-- C10: the `gemini_native_complete.py` formatter silently drops every
item whose type is neither `text` nor `image_url` (including every
`video_url` item), and an item list consisting only of such items formats
to the single empty text part. -/
theorem claim_C10_complete_drops :
    (∀ (i : ContentItem) (l : List ContentItem), dropped_by_complete i = true →
        NativeComplete.items_loop (i :: l) = NativeComplete.items_loop l) ∧
    (∀ (l : List ContentItem) (role : String),
        (∀ i ∈ l, dropped_by_complete i = true) →
        NativeComplete.format_content_for_gemini (.items l) role =
          some (.single (.text ""))) := by
  have hdrop : ∀ (i : ContentItem) (l : List ContentItem),
      dropped_by_complete i = true →
      NativeComplete.items_loop (i :: l) = NativeComplete.items_loop l := by
    intro i l hi
    have hempty : NativeComplete.item_parts i = some [] := by
      cases i <;> simp_all [dropped_by_complete, NativeComplete.item_parts]
    simp only [NativeComplete.items_loop, hempty]
    cases NativeComplete.items_loop l <;> simp
  refine ⟨hdrop, ?_⟩
  intro l role hall
  have hloop : NativeComplete.items_loop l = some [] := by
    induction l with
    | nil => rfl
    | cons i l ih =>
      rw [hdrop i l (hall i (by simp))]
      exact ih fun j hj => hall j (by simp [hj])
  simp only [NativeComplete.format_content_for_gemini, hloop]
  rfl

theorem claim_C10_complete_drops_witness :
    NativeComplete.format_content_for_gemini
        (.items [.videoUrl (some "https://youtu.be/abc") none, .other "audio_url"])
        "user" = some (.single (.text "")) :=
  claim_C10_complete_drops.2
    [.videoUrl (some "https://youtu.be/abc") none, .other "audio_url"] "user"
    (by decide)

/-- C5 counterexample: in the `gemini_native_complete.py` variant a
malformed data URI (here: no comma separator) raises out of the formatter —
there is no `try`/`except` around the split — so the item yields no
placeholder part and the conversion of the request fails instead of
succeeding. -/
theorem claim_C5_counterexample :
    NativeComplete.format_content_for_gemini
        (.items [.imageUrl (some "data:image/png;base64")]) "user" = none := by
  decide

/-- C5 (amended: the placeholder soft-fail holds in the
`gemini_native_function.py` variant, whose formatter catches the error and
emits the `"[Error processing image]"` text part so the conversion
succeeds; in the `gemini_native_complete.py` variant the same input raises
and aborts the conversion, which the request-level handler turns into an
error return). -/
theorem claim_C5_malformed_image :
    ∀ (v : Valves) (url : String) (role : String),
      pyStartsWith "data:image" url = true →
      parseDataUri url = none →
      NativeFunction.item_parts v (.imageUrl (some url)) =
        [GPart.text "[Error processing image]"] ∧
      (v.enableVision = true →
        NativeFunction.format_content_for_gemini v (.items [.imageUrl (some url)]) role =
          .single (GPart.text "[Error processing image]")) ∧
      NativeComplete.format_content_for_gemini (.items [.imageUrl (some url)]) role =
        none := by
  intro v url role hsw hp
  refine ⟨?_, ?_, ?_⟩
  · simp [NativeFunction.item_parts, hsw, hp]
  · intro hv
    simp [NativeFunction.format_content_for_gemini, NativeFunction.computed_parts, hv,
      NativeFunction.enabled_loop, NativeFunction.item_parts, hsw, hp, collapse]
  · simp [NativeComplete.format_content_for_gemini, NativeComplete.items_loop,
      NativeComplete.item_parts, hsw, hp]

theorem claim_C5_malformed_image_witness :
    NativeFunction.item_parts ⟨true, true, 1⟩
        (.imageUrl (some "data:image/png;base64")) =
      [GPart.text "[Error processing image]"] ∧
    (Valves.enableVision ⟨true, true, 1⟩ = true →
      NativeFunction.format_content_for_gemini ⟨true, true, 1⟩
          (.items [.imageUrl (some "data:image/png;base64")]) "user" =
        .single (GPart.text "[Error processing image]")) ∧
    NativeComplete.format_content_for_gemini
        (.items [.imageUrl (some "data:image/png;base64")]) "user" = none :=
  claim_C5_malformed_image ⟨true, true, 1⟩ "data:image/png;base64" "user"
    (by decide) (by decide)

/-- C6: for every well-formed `data:image/<mime>;base64,<payload>` URI (the
mime piece free of `;`, `:` and `,`), both variants' formatters split at
the first comma and emit `inlineData` whose mime type is exactly the
header's MIME segment and whose data is exactly the payload after the first
comma, and re-encoding that `inlineData` as a data URI reproduces the
original string. -/
theorem claim_C6_data_uri_roundtrip :
    ∀ (v : Valves) (m d : String),
      ';' ∉ m.data → ':' ∉ m.data → ',' ∉ m.data →
      NativeFunction.item_parts v
          (.imageUrl (some ("data:image/" ++ m ++ ";base64," ++ d))) =
        [GPart.inlineData ("image/" ++ m) d none] ∧
      NativeComplete.item_parts
          (.imageUrl (some ("data:image/" ++ m ++ ";base64," ++ d))) =
        some [GPart.inlineData ("image/" ++ m) d none] ∧
      "data:" ++ ("image/" ++ m) ++ ";base64," ++ d =
        "data:image/" ++ m ++ ";base64," ++ d := by
  intro v m d h1 h2 h3
  have hsw := pyStartsWith_data_image m d
  have hp := parseDataUri_valid m d h1 h2 h3
  refine ⟨?_, ?_, ?_⟩
  · simp [NativeFunction.item_parts, hsw, hp]
  · simp [NativeComplete.item_parts, hsw, hp]
  · apply str_eq_of_data
    simp only [String.data_append, List.append_assoc]
    rfl

theorem claim_C6_data_uri_roundtrip_witness :
    NativeFunction.item_parts ⟨true, true, 1⟩
        (.imageUrl (some ("data:image/" ++ "png" ++ ";base64," ++ "iVBORw0KG"))) =
      [GPart.inlineData ("image/" ++ "png") "iVBORw0KG" none] ∧
    NativeComplete.item_parts
        (.imageUrl (some ("data:image/" ++ "png" ++ ";base64," ++ "iVBORw0KG"))) =
      some [GPart.inlineData ("image/" ++ "png") "iVBORw0KG" none] ∧
    "data:" ++ ("image/" ++ "png") ++ ";base64," ++ "iVBORw0KG" =
      "data:image/" ++ "png" ++ ";base64," ++ "iVBORw0KG" :=
  claim_C6_data_uri_roundtrip ⟨true, true, 1⟩ "png" "iVBORw0KG"
    (by decide) (by decide) (by decide)

/-- C3 counterexample: auto-detect alone does not enable URL extraction —
the source gate (`gemini_native_function.py:148`) also requires
`ENABLE_VISION`.  With vision disabled and auto-detect enabled, a string
carrying a detected YouTube URL formats to a single plain text part and no
`fileData` part is emitted for the matched URL. -/
theorem claim_C3_counterexample :
    NativeFunction.format_content_for_gemini ⟨false, true, 1⟩
        (.str "Check this https://youtu.be/abc123 out") "user" =
      .single (.text "Check this https://youtu.be/abc123 out") ∧
    detect_youtube_urls "Check this https://youtu.be/abc123 out" =
      ["https://youtu.be/abc123"] ∧
    GPart.fileData "https://youtu.be/abc123" none ∉
      partsOf (NativeFunction.format_content_for_gemini ⟨false, true, 1⟩
        (.str "Check this https://youtu.be/abc123 out") "user") := by
  refine ⟨by decide, by decide, by decide⟩

/-- C3 (amended: the extraction requires vision/multimodal support to be
enabled in addition to YouTube auto-detection — with vision disabled the
string passes through as a single plain text part even when auto-detection
is on, see the counterexample): for every plain-string content with vision
and YouTube auto-detect enabled, the formatter's result is the collapse of
one `fileData` part per matched URL in order — `videoMetadata.fps`
attached exactly when the configured fps differs from 1.0 — followed by
one trailing text part holding the residual text (each matched URL
removed, with stripping) iff that residual is non-empty; spec scenario 3
produces the `fileData` part for `https://youtu.be/abc123` followed by
`text "Check this  out"`. -/
theorem claim_C3_youtube_autodetect :
    (∀ (v : Valves) (s : String) (role : String),
        v.enableVision = true → v.autoDetectYoutube = true →
        NativeFunction.format_content_for_gemini v (.str s) role =
          collapse
            (((detect_youtube_urls s).map fun u =>
                GPart.fileData u
                  (if v.defaultVideoFps ≠ 1 then some (.fpsMeta v.defaultVideoFps)
                   else none)) ++
              (if residual_text (detect_youtube_urls s) s ≠ "" then
                [GPart.text (residual_text (detect_youtube_urls s) s)]
              else []))
            (GPart.text s)) ∧
    NativeFunction.format_content_for_gemini ⟨true, true, 1⟩
        (.str "Check this https://youtu.be/abc123 out") "user" =
      .many [GPart.fileData "https://youtu.be/abc123" none,
        GPart.text "Check this  out"] := by
  refine ⟨?_, by decide⟩
  intro v s role hv ha
  simp only [NativeFunction.format_content_for_gemini, hv, ha, Bool.and_true]
  cases hd : detect_youtube_urls s with
  | nil =>
    simp only [hd, List.isEmpty_nil, Bool.not_true, Bool.false_and, Bool.false_eq_true,
      if_false, List.map_nil, List.nil_append, residual_text]
    by_cases hs : s = ""
    · subst hs
      simp [collapse]
    · simp [hs, collapse]
  | cons u us =>
    simp only [hd, List.isEmpty_cons, Bool.not_false, Bool.true_and, if_true]
    simp only [NativeFunction.yt_text_parts, hd, yt_loop_eq]

theorem claim_C3_youtube_autodetect_witness :
    NativeFunction.format_content_for_gemini ⟨true, true, 1⟩ (.str "hello") "user" =
      collapse
        (((detect_youtube_urls "hello").map fun u =>
            GPart.fileData u
              (if (1 : Rat) ≠ 1 then some (.fpsMeta 1) else none)) ++
          (if residual_text (detect_youtube_urls "hello") "hello" ≠ "" then
            [GPart.text (residual_text (detect_youtube_urls "hello") "hello")]
          else []))
        (GPart.text "hello") :=
  claim_C3_youtube_autodetect.1 ⟨true, true, 1⟩ "hello" "user" rfl rfl

end GeminiAdapter
